import Mathlib

/-!
Verification of the client-side YouTube extractor
(`YouTubeExtractor` in the repository's extractor module).

The JavaScript/TypeScript source is shallowly embedded: JS values that may be
`undefined` are modelled with `Option`, JS exceptions with `Except`, and the
JS string operations used by the source (`String.prototype.includes`,
`String.prototype.match` with the concrete regexes of the source,
`String.prototype.split`, `parseInt`) are modelled by executable functions on
`List Char` below.
-/

/-- JS `hay.includes(needle)` on char lists: `needle` occurs as a prefix of
`hay`. -/
def isPrefixL : List Char → List Char → Bool
  | [], _ => true
  | _ :: _, [] => false
  | a :: as, b :: bs => a == b && isPrefixL as bs

/-- JS `hay.includes(needle)` on char lists: `needle` occurs as a contiguous
sublist of `hay`. -/
def isInfixL (needle : List Char) : List Char → Bool
  | [] => needle.isEmpty
  | l@(_ :: bs) => isPrefixL needle l || isInfixL needle bs

/-- JS `s.includes(pat)`. -/
def strContains (s pat : String) : Bool := isInfixL pat.data s.data

/-- JS `s.split(", ")` (the exact two-character delimiter used by
`parseFormat`), on char lists. -/
def splitCommaSpace : List Char → List (List Char)
  | [] => [[]]
  | [c] => [[c]]
  | c :: d :: rest =>
    if c = ',' ∧ d = ' ' then [] :: splitCommaSpace rest
    else
      match splitCommaSpace (d :: rest) with
      | [] => [[c]]
      | t :: ts => (c :: t) :: ts

/-- The codec tokens of a captured `codecs` attribute value: the source's
`mimeMatch[1].split(', ')`. -/
def codecTokens (cap : String) : List String :=
  (splitCommaSpace cap.data).map (fun l => String.mk l)

/-- Helper for the `codecs="([^"]+)"` regex: the characters before the next
double quote, or `none` when no closing quote exists. -/
def takeToQuote : List Char → Option (List Char)
  | [] => none
  | c :: cs => if c = '"' then some [] else (takeToQuote cs).map (fun l => c :: l)

/-- The literal part of the source's regex `/codecs="([^"]+)"/`. -/
def codecsKey : List Char := "codecs=\"".data

/-- Leftmost match of the regex `/codecs="([^"]+)"/`: scan for the literal
`codecs="`, then capture the maximal nonempty run of non-quote characters
followed by a closing quote; on failure advance one character. -/
def scanCodecs : List Char → Option (List Char)
  | [] => none
  | c :: cs =>
    if isPrefixL codecsKey (c :: cs) then
      match takeToQuote (List.drop codecsKey.length (c :: cs)) with
      | some cap => if cap.isEmpty then scanCodecs cs else some cap
      | none => scanCodecs cs
    else scanCodecs cs

/-- The capture group of `mimeType.match(/codecs="([^"]+)"/)`, as a string. -/
def codecsOf (s : String) : Option String :=
  (scanCodecs s.data).map (fun l => String.mk l)

/-- One decimal or hexadecimal digit test, as used by JS `parseInt`. -/
def isBaseDigit (base : Nat) : Char → Bool
  | c =>
    if base == 16 then
      ('0' ≤ c && c ≤ '9') || ('a' ≤ c && c ≤ 'f') || ('A' ≤ c && c ≤ 'F')
    else '0' ≤ c && c ≤ '9'

/-- Numeric value of one digit character. -/
def digitVal (c : Char) : Nat :=
  if 'a' ≤ c && c ≤ 'f' then c.toNat - 'a'.toNat + 10
  else if 'A' ≤ c && c ≤ 'F' then c.toNat - 'A'.toNat + 10
  else c.toNat - '0'.toNat

/-- Fold a digit list into a natural number in the given base. -/
def digitsVal (base : Nat) (ds : List Char) : Nat :=
  ds.foldl (fun acc c => acc * base + digitVal c) 0

/-- JS whitespace skipped by `parseInt`. -/
def isJsWs (c : Char) : Bool :=
  c == ' ' || c == '\t' || c == '\n' || c == '\r'

/-- JS `parseInt(s)` (radix unspecified): skip whitespace, read an optional
sign, detect a `0x`/`0X` prefix, then take the maximal run of digits;
`none` models the `NaN` result. -/
def jsParseIntCore (s : String) : Option Int :=
  let cs := s.data.dropWhile isJsWs
  let signAndRest : Int × List Char :=
    match cs with
    | '-' :: r => (-1, r)
    | '+' :: r => (1, r)
    | _ => (1, cs)
  let baseAndDigits : Nat × List Char :=
    match signAndRest.2 with
    | '0' :: 'x' :: r => (16, r)
    | '0' :: 'X' :: r => (16, r)
    | r => (10, r)
  let ds := baseAndDigits.2.takeWhile (isBaseDigit baseAndDigits.1)
  if ds.isEmpty then none
  else some (signAndRest.1 * (digitsVal baseAndDigits.1 ds : Int))

/-- JS truthiness of a number-or-undefined (`0` and `undefined` are falsy). -/
def jsTruthyI : Option Int → Bool
  | none => false
  | some n => n != 0

/-- JS truthiness of a string-or-undefined (`""` and `undefined` are falsy). -/
def jsTruthyS : Option String → Bool
  | none => false
  | some s => !s.isEmpty

/-- JS `a || b` on string-or-undefined values. -/
def jsOrS (a b : Option String) : Option String :=
  if jsTruthyS a then a else b

/-- JS `a || d` where `d` is a plain string default: the value of `a` when
truthy, else `d`. -/
def jsSel (a : Option String) (d : String) : String :=
  match a with
  | some s => if s.isEmpty then d else s
  | none => d

/-- JS `n || d` on a number-or-undefined (`NaN` and `0` fall through). -/
def jsNumOr (a : Option Int) (d : Int) : Int :=
  match a with
  | none => d
  | some n => if n = 0 then d else n

/-- Raw thumbnail entry inside `videoDetails.thumbnail.thumbnails`. -/
structure RawThumbnailEntry where
  url : Option String

/-- Raw `videoDetails.thumbnail` holder. -/
structure RawThumbnailHolder where
  thumbnails : Option (List RawThumbnailEntry)

/-- Raw `videoDetails` object of a player response. -/
structure RawVideoDetails where
  videoId : Option String
  title : Option String
  lengthSeconds : Option String
  author : Option String
  thumbnail : Option RawThumbnailHolder

/-- One raw entry of `streamingData.formats` / `streamingData.adaptiveFormats`. -/
structure RawFormat where
  itag : Option Int
  mimeType : Option String
  width : Option Int
  height : Option Int
  fps : Option Int
  contentLength : Option String
  qualityLabel : Option String
  audioQuality : Option String
  url : Option String

/-- Raw `streamingData` object of a player response. -/
structure RawStreamingData where
  adaptiveFormats : Option (List RawFormat)
  formats : Option (List RawFormat)

/-- Raw player response, the argument of `parsePlayerResponse`. -/
structure RawPlayerResponse where
  videoDetails : Option RawVideoDetails
  streamingData : Option RawStreamingData

/-- The source's `YouTubeFormat` record. Fields whose runtime value can be a
string or `undefined` are `Option String`. -/
structure YouTubeFormat where
  format_id : String
  ext : String
  resolution : String
  fps : Int
  vcodec : Option String
  acodec : Option String
  filesize : Option Int
  url : Option String
  has_video : Bool
  has_audio : Bool
  format_note : String
  quality : Option String

/-- The source's `YouTubeVideoInfo` record. -/
structure YouTubeVideoInfo where
  id : Option String
  title : Option String
  duration : Int
  uploader : Option String
  thumbnail : String
  formats : List YouTubeFormat
  streamingData : Option RawStreamingData

/-- The source-list tag passed to `parseFormat`. -/
inductive SourceTag where
  | adaptive
  | progressive

/-- String form of a `SourceTag`, as interpolated into `format_note`. -/
def SourceTag.str : SourceTag → String
  | .adaptive => "adaptive"
  | .progressive => "progressive"

/-- `YouTubeExtractor.getExtensionFromMime`: substring tests in source order,
with the leading JS falsy check on the argument. -/
def getExtensionFromMime (m : Option String) : String :=
  match m with
  | none => "unknown"
  | some s =>
    if s = "" then "unknown"
    else if strContains s "mp4" then "mp4"
    else if strContains s "webm" then "webm"
    else if strContains s "3gpp" then "3gp"
    else if strContains s "audio/mp4" then "m4a"
    else if strContains s "audio/webm" then "webm"
    else "unknown"

/-- `YouTubeExtractor.parseFormat`, translated clause by clause from the
source. -/
def parseFormat (f : RawFormat) (tag : SourceTag) : YouTubeFormat :=
  let hasVideo : Bool :=
    match f.mimeType with
    | some s => strContains s "video"
    | none => false
  let hasAudio : Bool :=
    match f.mimeType with
    | some s => strContains s "audio"
    | none => false
  let codecs : List String :=
    match f.mimeType with
    | some s =>
      match codecsOf s with
      | some cap => codecTokens cap
      | none => []
    | none => []
  let vcodec : Option String :=
    if hasVideo = true ∧ 0 < codecs.length then codecs.get? 0 else some "none"
  let acodec : Option String :=
    if hasAudio = true then
      (if 1 < codecs.length then codecs.get? 1 else codecs.get? 0)
    else some "none"
  let resolution : String :=
    if jsTruthyI f.height = true ∧ jsTruthyI f.width = true then
      toString (f.width.getD 0) ++ "x" ++ toString (f.height.getD 0)
    else if jsTruthyI f.height = true then
      toString (f.height.getD 0) ++ "p"
    else "audio only"
  { format_id :=
      match f.itag with
      | some n => toString n
      | none => "unknown"
    ext := getExtensionFromMime f.mimeType
    resolution := resolution
    fps :=
      match f.fps with
      | some n => n
      | none => 0
    vcodec := vcodec
    acodec := acodec
    filesize :=
      match f.contentLength with
      | some s => if s.isEmpty then none else jsParseIntCore s
      | none => none
    url := f.url
    has_video := hasVideo
    has_audio := hasAudio
    format_note := tag.str ++ " - " ++ jsSel f.qualityLabel (jsSel f.audioQuality "unknown")
    quality := jsOrS f.qualityLabel f.audioQuality }

/-- `YouTubeExtractor.parsePlayerResponse`: throws (models the JS `throw`)
when `videoDetails` is absent, otherwise builds the `YouTubeVideoInfo`. -/
def parsePlayerResponse (pr : RawPlayerResponse) : Except String YouTubeVideoInfo :=
  match pr.videoDetails with
  | none => .error "No video details found"
  | some vd =>
    let aRaw : List RawFormat :=
      match pr.streamingData with
      | none => []
      | some sd =>
        match sd.adaptiveFormats with
        | none => []
        | some l => l
    let pRaw : List RawFormat :=
      match pr.streamingData with
      | none => []
      | some sd =>
        match sd.formats with
        | none => []
        | some l => l
    .ok
      { id := vd.videoId
        title := vd.title
        duration := jsNumOr (vd.lengthSeconds.bind jsParseIntCore) 0
        uploader := vd.author
        thumbnail :=
          (((vd.thumbnail.bind RawThumbnailHolder.thumbnails).bind List.head?).bind
            RawThumbnailEntry.url).getD ""
        formats :=
          aRaw.map (fun f => parseFormat f .adaptive) ++
            pRaw.map (fun f => parseFormat f .progressive)
        streamingData := pr.streamingData }

/-- Characters that terminate the captured group `([^&\n?#]+)` of the
video-id regexes. -/
def idStopChar (c : Char) : Bool :=
  c == '&' || c == '\n' || c == '?' || c == '#'

/-- Characters admitted by the captured group `([^&\n?#]+)`. -/
def idChar (c : Char) : Bool := !idStopChar c

/-- Try, in regex alternation order, each literal alternative at the current
position; on a literal match, capture the maximal nonempty run of id
characters that follows. -/
def tryAlts (alts : List (List Char)) (s : List Char) : Option (List Char) :=
  match alts with
  | [] => none
  | alt :: rest =>
    match isPrefixL alt s with
    | true =>
      match (s.drop alt.length).takeWhile idChar with
      | [] => tryAlts rest s
      | c :: cs => some (c :: cs)
    | false => tryAlts rest s

/-- Leftmost-match scan of one alternation regex over the subject string. -/
def scanAlts (alts : List (List Char)) : List Char → Option (List Char)
  | [] => none
  | c :: cs =>
    match tryAlts alts (c :: cs) with
    | some cap => some cap
    | none => scanAlts alts cs

/-- `url.match(pattern)` for one of the source's two video-id regexes, each of
which is an alternation of literals followed by the capture `([^&\n?#]+)`;
returns the first captured group. -/
def matchYtPattern (alts : List String) (url : String) : Option String :=
  (scanAlts (alts.map String.data) url.data).map (fun l => String.mk l)

/-- Literal alternatives of the first source regex
`/(?:youtube\.com\/watch\?v=|youtu\.be\/|youtube\.com\/embed\/)([^&\n?#]+)/`. -/
def watchAlts : List String :=
  ["youtube.com/watch?v=", "youtu.be/", "youtube.com/embed/"]

/-- Literal alternatives of the second source regex
`/youtube\.com\/v\/([^&\n?#]+)/`. -/
def vAlts : List String := ["youtube.com/v/"]

/-- The source's ordered `patterns` array in `extractVideoId`. -/
def videoIdPatternAlts : List (List String) := [watchAlts, vAlts]

/-- `YouTubeExtractor.extractVideoId`: first pattern that matches wins;
`none` models the JS `null`. -/
def extractVideoId (url : String) : Option String :=
  videoIdPatternAlts.findSome? (fun alts => matchYtPattern alts url)

/-- Outcome of the `fetch` call inside `extractFromInnerTube`: an HTTP
response with a status and a body (`none` body models a body that fails to
parse as JSON), or a rejected fetch. -/
inductive InnerTubeOutcome where
  | response (status : Nat) (body : Option RawPlayerResponse)
  | fetchFailure

/-- The `Response.ok` predicate: status in the range 200-299. -/
def responseOk (status : Nat) : Bool :=
  decide (200 ≤ status) && decide (status < 300)

/-- `YouTubeExtractor.extractFromInnerTube` over a fetch outcome: every
internal throw (non-ok status, invalid JSON, parse failure) is caught by the
function's own try/catch and becomes `none`; a response without
`videoDetails` returns `none` directly. -/
def extractFromInnerTube (o : InnerTubeOutcome) : Option YouTubeVideoInfo :=
  match o with
  | .fetchFailure => none
  | .response status body =>
    if responseOk status then
      match body with
      | none => none
      | some data =>
        match data.videoDetails with
        | none => none
        | some _ =>
          match parsePlayerResponse data with
          | .ok v => some v
          | .error _ => none
    else none

/-- `YouTubeExtractor.extractVideoInfo`: InnerTube first, then the embed
fallback (whose settled result is the second argument), then the final
error; the outer catch rethrows, so the behaviour is exactly this match. -/
def extractVideoInfo (o : InnerTubeOutcome) (embedResult : Option YouTubeVideoInfo) :
    Except String YouTubeVideoInfo :=
  match extractFromInnerTube o with
  | some v => .ok v
  | none =>
    match embedResult with
    | some v => .ok v
    | none => .error "All extraction methods failed"

/-- Observable state of one `extractFromEmbed` call: whether the iframe is
attached to the document, whether the 10-second timer is still pending
(neither fired nor cleared), and whether/how the returned promise settled
(`none` = still pending, `some r` = resolved with `r`). -/
structure EmbedState where
  iframeAttached : Bool
  timerPending : Bool
  settled : Option (Option YouTubeVideoInfo)

/-- `document.body.removeChild(iframe)`: fails with a DOM `NotFoundError`
when the iframe is not currently attached. -/
def domRemoveChild (st : EmbedState) : Option EmbedState :=
  if st.iframeAttached then some { st with iframeAttached := false } else none

/-- `clearTimeout(timeout)`: idempotent, never fails. -/
def clearTimer (st : EmbedState) : EmbedState :=
  { st with timerPending := false }

/-- `resolve(r)`: only the first settlement of the promise counts. -/
def resolveWith (r : Option YouTubeVideoInfo) (st : EmbedState) : EmbedState :=
  match st.settled with
  | some _ => st
  | none => { st with settled := some r }

/-- What the iframe's document yields once the load event fires: access
blocked by cross-origin policy, no script with a usable player-response
assignment, a regex match whose JSON fails to parse, or a parsed player
response object. -/
inductive DocOutcome where
  | blocked
  | noPlayerData
  | badJson
  | player (pr : RawPlayerResponse)

/-- The try block of the `iframe.onload` handler. An `Except.error` carries
the state at the point the JS exception was raised, so the catch block runs
from that state. -/
def onloadTryBlock (doc : DocOutcome) (st : EmbedState) : Except EmbedState EmbedState :=
  match doc with
  | .blocked =>
    let st1 := clearTimer st
    match domRemoveChild st1 with
    | some st2 => .ok (resolveWith none st2)
    | none => .error st1
  | .noPlayerData =>
    let st1 := clearTimer st
    match domRemoveChild st1 with
    | some st2 => .ok (resolveWith none st2)
    | none => .error st1
  | .badJson => .error st
  | .player pr =>
    let st1 := clearTimer st
    match domRemoveChild st1 with
    | some st2 =>
      match parsePlayerResponse pr with
      | .ok v => .ok (resolveWith (some v) st2)
      | .error _ => .error st2
    | none => .error st1

/-- The whole `iframe.onload` handler: the try block, then on exception the
catch block, whose own `removeChild` can itself throw; in that case
`resolve(null)` is never executed and the handler's exception escapes,
leaving the promise in whatever settlement state it already had. -/
def onloadRun (doc : DocOutcome) (st : EmbedState) : EmbedState :=
  match onloadTryBlock doc st with
  | .ok st1 => st1
  | .error stE =>
    let st1 := clearTimer stE
    match domRemoveChild st1 with
    | some st2 => resolveWith none st2
    | none => st1

/-- Which external event settles the race inside `extractFromEmbed`: the
10-second timeout fires first, the load event fires first (with a given
document outcome), or the error event fires first. -/
inductive EmbedScenario where
  | timeoutFirst
  | load (doc : DocOutcome)
  | loadError

/-- `YouTubeExtractor.extractFromEmbed` as a state machine: the iframe is
created and attached and the timer started, then exactly one of the three
competing handlers runs. Firing the timeout consumes the timer (it is no
longer pending). -/
def runEmbed (sc : EmbedScenario) : EmbedState :=
  let st0 : EmbedState := { iframeAttached := true, timerPending := true, settled := none }
  match sc with
  | .timeoutFirst =>
    let st1 : EmbedState := { st0 with timerPending := false }
    match domRemoveChild st1 with
    | some st2 => resolveWith none st2
    | none => st1
  | .loadError =>
    let st1 := clearTimer st0
    match domRemoveChild st1 with
    | some st2 => resolveWith none st2
    | none => st1
  | .load doc => onloadRun doc st0

/-- A list all of whose elements pass `p` is left unchanged by `takeWhile p`. -/
theorem takeWhile_of_all {p : Char → Bool} : ∀ {l : List Char}, l.all p = true → l.takeWhile p = l := by
  intro l
  induction l with
  | nil => intro _; rfl
  | cons a as ih =>
    intro h
    simp only [List.all_cons, Bool.and_eq_true] at h
    simp [List.takeWhile_cons, h.1, ih h.2]

/-- JS `split` never yields an empty array. -/
theorem splitCommaSpace_ne_nil : ∀ (l : List Char), splitCommaSpace l ≠ [] := by
  intro l
  induction l using splitCommaSpace.induct with
  | case1 => simp [splitCommaSpace]
  | case2 c => simp [splitCommaSpace]
  | case3 c d rest h ih => simp [splitCommaSpace, h]
  | case4 c d rest h hs ih => simp [splitCommaSpace, h, hs]
  | case5 c d rest h t ts hs ih => simp [splitCommaSpace, h, hs]

/-- `isPrefixL` agrees with the existence of a completing suffix. -/
theorem isPrefixL_iff_ex : ∀ (a b : List Char), isPrefixL a b = true ↔ ∃ t, b = a ++ t := by
  intro a
  induction a with
  | nil => intro b; simp [isPrefixL]
  | cons x xs ih =>
    intro b
    cases b with
    | nil => simp [isPrefixL]
    | cons y ys =>
      simp only [isPrefixL, Bool.and_eq_true, beq_iff_eq, ih, List.cons_append,
        List.cons.injEq]
      constructor
      · rintro ⟨hx, t, ht⟩; exact ⟨t, hx.symm, ht⟩
      · rintro ⟨t, hy, ht⟩; exact ⟨hy.symm, t, ht⟩

/-- `isInfixL` agrees with the existence of a surrounding context. -/
theorem isInfixL_iff_ex : ∀ (a b : List Char), isInfixL a b = true ↔ ∃ u t, b = u ++ a ++ t := by
  intro a b
  induction b with
  | nil =>
    simp only [isInfixL, List.isEmpty_iff]
    constructor
    · intro h; exact ⟨[], [], by simp [h]⟩
    · rintro ⟨u, t, h⟩
      rcases List.append_eq_nil.mp (List.append_eq_nil.mp h.symm).1 with ⟨-, h2⟩
      exact h2
  | cons y ys ih =>
    simp only [isInfixL, Bool.or_eq_true, isPrefixL_iff_ex, ih]
    constructor
    · rintro (⟨t, ht⟩ | ⟨u, t, ht⟩)
      · exact ⟨[], t, by simp [ht]⟩
      · exact ⟨y :: u, t, by simp [ht]⟩
    · rintro ⟨u, t, ht⟩
      cases u with
      | nil => exact Or.inl ⟨t, by simpa using ht⟩
      | cons u0 us =>
        simp only [List.cons_append, List.cons.injEq] at ht
        exact Or.inr ⟨us, t, ht.2⟩

/-- A string containing `audio/mp4` also contains `mp4`. -/
theorem strContains_mp4_of_audioMp4 (s : String) (h : strContains s "audio/mp4" = true) :
    strContains s "mp4" = true := by
  rw [strContains, isInfixL_iff_ex] at h ⊢
  obtain ⟨u, t, ht⟩ := h
  refine ⟨u ++ "audio/".data, t, ?_⟩
  have hd : "audio/mp4".data = "audio/".data ++ "mp4".data := rfl
  rw [ht, hd]
  simp [List.append_assoc]

/-- A string containing `audio/webm` also contains `webm`. -/
theorem strContains_webm_of_audioWebm (s : String) (h : strContains s "audio/webm" = true) :
    strContains s "webm" = true := by
  rw [strContains, isInfixL_iff_ex] at h ⊢
  obtain ⟨u, t, ht⟩ := h
  refine ⟨u ++ "audio/".data, t, ?_⟩
  have hd : "audio/webm".data = "audio/".data ++ "webm".data := rfl
  rw [ht, hd]
  simp [List.append_assoc]

def c1RawFormatIn : RawFormat where
  itag := some 18
  mimeType := some "video/mp4; codecs=\"avc1, mp4a\""
  width := some 640
  height := some 360
  fps := none
  contentLength := none
  qualityLabel := none
  audioQuality := none
  url := none

def c1StreamingIn : RawStreamingData where
  adaptiveFormats := none
  formats := some [c1RawFormatIn]

def c1ResponseIn : RawPlayerResponse where
  videoDetails := some
    { videoId := some "v1", title := some "T", lengthSeconds := some "125",
      author := some "A", thumbnail := none }
  streamingData := some c1StreamingIn

def c1FormatOut : YouTubeFormat where
  format_id := "18"
  ext := "mp4"
  resolution := "640x360"
  fps := 0
  vcodec := some "avc1"
  acodec := some "none"
  filesize := none
  url := none
  has_video := true
  has_audio := false
  format_note := "progressive - unknown"
  quality := none

def c1InfoOut : YouTubeVideoInfo where
  id := some "v1"
  title := some "T"
  duration := 125
  uploader := some "A"
  thumbnail := ""
  formats := [c1FormatOut]
  streamingData := some c1StreamingIn

/-- Claim C1 as stated is false on the code: for the given mocked response the
progressive MIME type does not contain the substring "audio", so the parsed
format has `has_audio = false` and `acodec = "none"`, not `has_audio = true`
and `acodec = "mp4a"` as the claim demands. -/
theorem C1_claim_counterexample :
    ((parsePlayerResponse c1ResponseIn).toOption.bind (fun i => i.formats.head?)).map
      (fun f => (f.has_audio, f.acodec)) = some (false, some "none") ∧
    some ((false : Bool), (some "none" : Option String)) ≠ some ((true : Bool), some "mp4a") := by
  exact ⟨rfl, by decide⟩

/-- Claim C1, amended: extraction of the mocked response yields exactly the
claimed record except that `has_audio` is `false` and `acodec` is `"none"`. -/
theorem C1_end_to_end_amended : parsePlayerResponse c1ResponseIn = .ok c1InfoOut := rfl

/-- Claim C10: `getExtensionFromMime` never returns "m4a"; a MIME containing
"audio/mp4" also contains "mp4" and yields "mp4", and the guards of the last
two branches are never reachable. -/
theorem C10_no_m4a :
    (∀ m, getExtensionFromMime m ≠ "m4a") ∧
    (∀ s, strContains s "audio/mp4" = true → getExtensionFromMime (some s) = "mp4") ∧
    (∀ s, ¬(strContains s "mp4" = false ∧ strContains s "audio/mp4" = true)) ∧
    (∀ s, ¬(strContains s "webm" = false ∧ strContains s "audio/webm" = true)) := by
  refine ⟨?_, ?_, ?_, ?_⟩
  · intro m
    match m with
    | none => simp [getExtensionFromMime]
    | some s =>
      simp only [getExtensionFromMime]
      split_ifs with h0 h1 h2 h3 h4 h5 <;> try decide
      · exact absurd (strContains_mp4_of_audioMp4 s h4) h1
  · intro s h
    have h4 := strContains_mp4_of_audioMp4 s h
    have hne : ¬ s = "" := by
      intro he
      subst he
      exact absurd h4 (by decide)
    simp [getExtensionFromMime, hne, h4]
  · rintro s ⟨h1, h2⟩
    have := strContains_mp4_of_audioMp4 s h2
    simp [h1] at this
  · rintro s ⟨h1, h2⟩
    have := strContains_webm_of_audioWebm s h2
    simp [h1] at this

/-- Closed instance of C10 at a concrete audio MIME type. -/
theorem C10_no_m4a_witness :
    getExtensionFromMime (some "audio/mp4; codecs=\"mp4a.40.2\"") ≠ "m4a" ∧
    getExtensionFromMime (some "audio/mp4; codecs=\"mp4a.40.2\"") = "mp4" :=
  ⟨C10_no_m4a.1 (some "audio/mp4; codecs=\"mp4a.40.2\""),
   C10_no_m4a.2.1 "audio/mp4; codecs=\"mp4a.40.2\"" (by decide)⟩

/-- Claim C6: the container extension follows the source's fixed
first-match-wins substring priority mp4, webm, 3gpp, audio/mp4, audio/webm,
with "unknown" for an absent field or when no test matches; a MIME containing
both "mp4" and "webm" yields "mp4". -/
theorem C6_extension_priority :
    getExtensionFromMime none = "unknown" ∧
    (∀ s, strContains s "mp4" = true → getExtensionFromMime (some s) = "mp4") ∧
    (∀ s, strContains s "mp4" = false → strContains s "webm" = true →
      getExtensionFromMime (some s) = "webm") ∧
    (∀ s, strContains s "mp4" = false → strContains s "webm" = false →
      strContains s "3gpp" = true → getExtensionFromMime (some s) = "3gp") ∧
    (∀ s, strContains s "mp4" = false → strContains s "webm" = false →
      strContains s "3gpp" = false → strContains s "audio/mp4" = true →
      getExtensionFromMime (some s) = "m4a") ∧
    (∀ s, strContains s "mp4" = false → strContains s "webm" = false →
      strContains s "3gpp" = false → strContains s "audio/mp4" = false →
      strContains s "audio/webm" = true → getExtensionFromMime (some s) = "webm") ∧
    (∀ s, strContains s "mp4" = false → strContains s "webm" = false →
      strContains s "3gpp" = false → strContains s "audio/mp4" = false →
      strContains s "audio/webm" = false → getExtensionFromMime (some s) = "unknown") ∧
    (∀ s, strContains s "mp4" = true → strContains s "webm" = true →
      getExtensionFromMime (some s) = "mp4") := by
  have hne : ∀ (s pat : String), strContains s pat = true → pat.data ≠ [] → ¬ s = "" := by
    intro s pat h hp he
    subst he
    rw [strContains, isInfixL_iff_ex] at h
    obtain ⟨u, t, ht⟩ := h
    rcases List.append_eq_nil.mp ht.symm with ⟨h1, -⟩
    rcases List.append_eq_nil.mp h1 with ⟨-, h2⟩
    exact hp h2
  refine ⟨rfl, ?_, ?_, ?_, ?_, ?_, ?_, ?_⟩
  · intro s h1
    simp [getExtensionFromMime, hne s _ h1 (by decide), h1]
  · intro s h1 h2
    simp [getExtensionFromMime, hne s _ h2 (by decide), h1, h2]
  · intro s h1 h2 h3
    simp [getExtensionFromMime, hne s _ h3 (by decide), h1, h2, h3]
  · intro s h1 h2 h3 h4
    simp [getExtensionFromMime, hne s _ h4 (by decide), h1, h2, h3, h4]
  · intro s h1 h2 h3 h4 h5
    simp [getExtensionFromMime, hne s _ h5 (by decide), h1, h2, h3, h4, h5]
  · intro s h1 h2 h3 h4 h5
    by_cases he : s = ""
    · simp [getExtensionFromMime, he]
    · simp [getExtensionFromMime, he, h1, h2, h3, h4, h5]
  · intro s h1 h2
    simp [getExtensionFromMime, hne s _ h1 (by decide), h1]

/-- Closed instances of C6 at concrete MIME types, one per priority rank. -/
theorem C6_extension_priority_witness :
    getExtensionFromMime (some "video/mp4") = "mp4" ∧
    getExtensionFromMime (some "video/webm") = "webm" ∧
    getExtensionFromMime (some "x-3gpp") = "3gp" ∧
    getExtensionFromMime (some "text/plain") = "unknown" ∧
    getExtensionFromMime (some "mp4 and webm") = "mp4" :=
  ⟨C6_extension_priority.2.1 "video/mp4" (by decide),
   C6_extension_priority.2.2.1 "video/webm" (by decide) (by decide),
   C6_extension_priority.2.2.2.1 "x-3gpp" (by decide) (by decide) (by decide),
   C6_extension_priority.2.2.2.2.2.2.1 "text/plain" (by decide) (by decide) (by decide)
     (by decide) (by decide),
   C6_extension_priority.2.2.2.2.2.2.2 "mp4 and webm" (by decide) (by decide)⟩

def c5WidthWithZeroHeight : RawFormat where
  itag := none
  mimeType := none
  width := some 640
  height := some 0
  fps := none
  contentLength := none
  qualityLabel := none
  audioQuality := none
  url := none

/-- Claim C5 as stated is false on the code: with width and height both
present but height equal to 0, the claim demands "640x0", yet the source
tests JS truthiness (0 is falsy), so the resolution is "audio only". -/
theorem C5_claim_counterexample :
    (parseFormat c5WidthWithZeroHeight .adaptive).resolution = "audio only" ∧
    (parseFormat c5WidthWithZeroHeight .adaptive).resolution ≠ "640x0" := by
  exact ⟨rfl, by decide⟩

/-- Claim C5, amended: "present" must be read as "present and nonzero"
(JS truthiness): both width and height truthy gives "WxH", height truthy with
width absent or zero gives "Hp", height absent or zero gives "audio only". -/
theorem C5_resolution_amended :
    (∀ f tag w h, f.width = some w → w ≠ 0 → f.height = some h → h ≠ 0 →
      (parseFormat f tag).resolution = toString w ++ "x" ++ toString h) ∧
    (∀ f tag h, f.height = some h → h ≠ 0 → (f.width = none ∨ f.width = some 0) →
      (parseFormat f tag).resolution = toString h ++ "p") ∧
    (∀ f tag, (f.height = none ∨ f.height = some 0) →
      (parseFormat f tag).resolution = "audio only") := by
  refine ⟨?_, ?_, ?_⟩
  · intro f tag w h hw hw0 hh hh0
    simp [parseFormat, hw, hh, jsTruthyI, hw0, hh0]
  · intro f tag h hh hh0 hw
    rcases hw with hw | hw <;> simp [parseFormat, hw, hh, jsTruthyI, hh0]
  · intro f tag hh
    rcases hh with hh | hh <;> simp [parseFormat, hh, jsTruthyI]

def c5Both : RawFormat where
  itag := none
  mimeType := none
  width := some 1920
  height := some 1080
  fps := none
  contentLength := none
  qualityLabel := none
  audioQuality := none
  url := none

def c5OnlyHeight : RawFormat where
  itag := none
  mimeType := none
  width := none
  height := some 720
  fps := none
  contentLength := none
  qualityLabel := none
  audioQuality := none
  url := none

def c5Neither : RawFormat where
  itag := none
  mimeType := none
  width := none
  height := none
  fps := none
  contentLength := none
  qualityLabel := none
  audioQuality := none
  url := none

/-- Closed instances of the amended C5 at the claim's three examples. -/
theorem C5_resolution_witness :
    (parseFormat c5Both .adaptive).resolution = "1920x1080" ∧
    (parseFormat c5OnlyHeight .adaptive).resolution = "720p" ∧
    (parseFormat c5Neither .adaptive).resolution = "audio only" :=
  ⟨(C5_resolution_amended.1 c5Both .adaptive 1920 1080 rfl (by decide) rfl (by decide)).trans
     (by decide),
   (C5_resolution_amended.2.1 c5OnlyHeight .adaptive 720 rfl (by decide) (Or.inl rfl)).trans
     (by decide),
   C5_resolution_amended.2.2 c5Neither .adaptive (Or.inl rfl)⟩

def c8NegDetails : RawVideoDetails where
  videoId := some "v"
  title := some "t"
  lengthSeconds := some "-5"
  author := some "a"
  thumbnail := none

def c8NegResponse : RawPlayerResponse where
  videoDetails := some c8NegDetails
  streamingData := none

/-- Claim C8 as stated is false on the code: for `lengthSeconds = "-5"` the
integer parse yields -5 and the code stores -5 as the duration, which is not
a non-negative integer. -/
theorem C8_claim_counterexample :
    (parsePlayerResponse c8NegResponse).toOption.map YouTubeVideoInfo.duration =
      some (-5) ∧ ¬ (0 : Int) ≤ -5 := ⟨rfl, by decide⟩

/-- Claim C8, amended: the duration equals the JS integer parse of
`lengthSeconds` with default 0 when the parse fails (or yields 0); it is
non-negative whenever the parsed value is non-negative (the blanket
non-negativity of the original claim fails for strings parsing negative);
the thumbnail is the url of the first entry of the nested thumbnail list,
defaulting to the empty string. -/
theorem C8_duration_thumbnail_amended :
    ∀ (pr : RawPlayerResponse) (vd : RawVideoDetails), pr.videoDetails = some vd →
      ∃ info, parsePlayerResponse pr = .ok info ∧
        info.duration = jsNumOr (vd.lengthSeconds.bind jsParseIntCore) 0 ∧
        (vd.lengthSeconds.bind jsParseIntCore = none → info.duration = 0) ∧
        (∀ n, vd.lengthSeconds.bind jsParseIntCore = some n → 0 ≤ n → 0 ≤ info.duration) ∧
        info.thumbnail = (((vd.thumbnail.bind RawThumbnailHolder.thumbnails).bind
          List.head?).bind RawThumbnailEntry.url).getD "" := by
  intro pr vd h
  obtain ⟨vdo, sdo⟩ := pr
  simp only at h
  subst h
  refine ⟨_, rfl, rfl, ?_, ?_, rfl⟩
  · intro hn
    simp [hn, jsNumOr]
  · intro n hn h0
    simp only [hn, jsNumOr]
    split_ifs with hz
    · exact le_refl 0
    · exact h0

def c8PosDetails : RawVideoDetails where
  videoId := some "v"
  title := some "t"
  lengthSeconds := some "125"
  author := some "a"
  thumbnail := some { thumbnails := some [{ url := some "http://th" }] }

def c8PosResponse : RawPlayerResponse where
  videoDetails := some c8PosDetails
  streamingData := none

/-- Closed instance of the amended C8 at a concrete response. -/
theorem C8_duration_thumbnail_witness :
    (parsePlayerResponse c8PosResponse).toOption.map
      (fun i => (i.duration, i.thumbnail)) = some (125, "http://th") := by
  obtain ⟨info, he, hd, -, -, ht⟩ :=
    C8_duration_thumbnail_amended c8PosResponse c8PosDetails rfl
  rw [he]
  simp only [Except.toOption, Option.map]
  rw [hd, ht]
  decide

def c3AudioNoCodecs : RawFormat where
  itag := none
  mimeType := some "audio/mp4"
  width := none
  height := none
  fps := none
  contentLength := none
  qualityLabel := none
  audioQuality := none
  url := none

/-- Claim C3 as stated is false on the code: a MIME type containing "audio"
but carrying no codecs parameter makes the source read `codecs[0]` of an
empty array, so `acodec` is `undefined` (modelled `none`), not a string, while
`has_audio` is true. -/
theorem C3_claim_counterexample :
    (parseFormat c3AudioNoCodecs .adaptive).has_audio = true ∧
    (parseFormat c3AudioNoCodecs .adaptive).acodec = none := ⟨rfl, rfl⟩

/-- Claim C3, amended: resolution is never empty (unconditionally); and for
entries whose MIME type carries a codecs parameter none of whose tokens is
the literal "none", `has_video`/`has_audio` agree with `vcodec`/`acodec`
being a token other than "none", and both codec fields are defined strings. -/
theorem C3_codec_flags_amended :
    (∀ f tag, (parseFormat f tag).resolution ≠ "") ∧
    (∀ f tag s cap, f.mimeType = some s → codecsOf s = some cap →
      ¬ "none" ∈ codecTokens cap →
      (((parseFormat f tag).has_video = true ↔ (parseFormat f tag).vcodec ≠ some "none") ∧
       ((parseFormat f tag).has_audio = true ↔ (parseFormat f tag).acodec ≠ some "none") ∧
       (parseFormat f tag).vcodec.isSome = true ∧
       (parseFormat f tag).acodec.isSome = true)) := by
  have hx : "x".data = ['x'] := rfl
  have hp : "p".data = ['p'] := rfl
  refine ⟨?_, ?_⟩
  · intro f tag
    simp only [parseFormat]
    split_ifs with h1 h2
    · rw [Ne, String.ext_iff]
      simp [String.data_append, hx]
    · rw [Ne, String.ext_iff]
      simp [String.data_append, hp]
    · decide
  · intro f tag s cap hm hc hnone
    have htoks : codecTokens cap ≠ [] := by
      simp only [codecTokens]
      intro h0
      exact splitCommaSpace_ne_nil cap.data (List.map_eq_nil_iff.mp h0)
    cases hts : codecTokens cap with
    | nil => exact absurd hts htoks
    | cons t ts =>
      rw [hts] at hnone
      simp only [List.mem_cons, not_or] at hnone
      obtain ⟨htn, hrest⟩ := hnone
      have htn' : t ≠ "none" := fun h => htn h.symm
      cases hv : strContains s "video" <;> cases ha : strContains s "audio"
      · simp [parseFormat, hm, hc, hts, hv, ha]
      · cases ts with
        | nil => simp [parseFormat, hm, hc, hts, hv, ha, htn']
        | cons t1 ts' =>
          have ht1 : t1 ≠ "none" := by
            intro h
            exact hrest (h ▸ List.mem_cons_self t1 ts')
          simp [parseFormat, hm, hc, hts, hv, ha, ht1]
      · simp [parseFormat, hm, hc, hts, hv, ha, htn']
      · cases ts with
        | nil => simp [parseFormat, hm, hc, hts, hv, ha, htn']
        | cons t1 ts' =>
          have ht1 : t1 ≠ "none" := by
            intro h
            exact hrest (h ▸ List.mem_cons_self t1 ts')
          simp [parseFormat, hm, hc, hts, hv, ha, htn', ht1]

def c3GoodAudio : RawFormat where
  itag := none
  mimeType := some "audio/mp4; codecs=\"mp4a.40.2\""
  width := none
  height := none
  fps := none
  contentLength := none
  qualityLabel := none
  audioQuality := none
  url := none

/-- Closed instance of the amended C3 at a concrete audio-only format. -/
theorem C3_codec_flags_witness :
    (parseFormat c3GoodAudio .adaptive).resolution ≠ "" ∧
    (((parseFormat c3GoodAudio .adaptive).has_video = true ↔
       (parseFormat c3GoodAudio .adaptive).vcodec ≠ some "none") ∧
     ((parseFormat c3GoodAudio .adaptive).has_audio = true ↔
       (parseFormat c3GoodAudio .adaptive).acodec ≠ some "none") ∧
     (parseFormat c3GoodAudio .adaptive).vcodec.isSome = true ∧
     (parseFormat c3GoodAudio .adaptive).acodec.isSome = true) :=
  ⟨C3_codec_flags_amended.1 c3GoodAudio .adaptive,
   C3_codec_flags_amended.2 c3GoodAudio .adaptive "audio/mp4; codecs=\"mp4a.40.2\""
     "mp4a.40.2" rfl rfl (by decide)⟩

/-- Modelled from the claim's words, for comparison with the source: splitting
a codecs capture on the bare comma character. -/
def claimCommaSplit : List Char → List (List Char)
  | [] => [[]]
  | c :: rest =>
    if c = ',' then [] :: claimCommaSplit rest
    else
      match claimCommaSplit rest with
      | [] => [[c]]
      | t :: ts => (c :: t) :: ts

/-- The claim's "comma-split codec tokens" of a capture, as strings. -/
def claimCommaTokens (cap : String) : List String :=
  (claimCommaSplit cap.data).map (fun l => String.mk l)

def c4NoSpace : RawFormat where
  itag := none
  mimeType := some "video/mp4; codecs=\"a,b\""
  width := none
  height := none
  fps := none
  contentLength := none
  qualityLabel := none
  audioQuality := none
  url := none

/-- Claim C4 as stated is false on the code: the source splits the codecs
capture on the two-character delimiter comma-space, not on commas. For the
capture "a,b" the comma-split tokens are ["a", "b"] with first token "a",
but the code assigns the whole capture "a,b" as the video codec. -/
theorem C4_claim_counterexample :
    claimCommaTokens "a,b" = ["a", "b"] ∧
    strContains "video/mp4; codecs=\"a,b\"" "video" = true ∧
    codecsOf "video/mp4; codecs=\"a,b\"" = some "a,b" ∧
    (parseFormat c4NoSpace .adaptive).vcodec = some "a,b" ∧
    some "a,b" ≠ some "a" := ⟨rfl, rfl, rfl, rfl, by decide⟩

/-- Claim C4, amended: with tokens obtained by splitting the codecs capture
on the two-character delimiter comma-space (as the source does), the video
codec is the first token when the MIME type contains "video", the audio codec
is the second token when at least two tokens exist and otherwise the first,
and for an audio-only MIME type with a single token the audio codec is that
token while the video codec is "none". -/
theorem C4_codec_tokens_amended :
    ∀ (f : RawFormat) (tag : SourceTag) (s cap : String),
      f.mimeType = some s → codecsOf s = some cap →
      ((strContains s "video" = true →
        (parseFormat f tag).vcodec = (codecTokens cap).get? 0) ∧
       (strContains s "audio" = true →
        (parseFormat f tag).acodec =
          (if 1 < (codecTokens cap).length then (codecTokens cap).get? 1
           else (codecTokens cap).get? 0)) ∧
       (strContains s "audio" = true → strContains s "video" = false →
        (codecTokens cap).length = 1 →
        (parseFormat f tag).acodec = (codecTokens cap).get? 0 ∧
        (parseFormat f tag).vcodec = some "none")) := by
  intro f tag s cap hm hc
  have htoks : codecTokens cap ≠ [] := by
    simp only [codecTokens]
    intro h0
    exact splitCommaSpace_ne_nil cap.data (List.map_eq_nil_iff.mp h0)
  cases hts : codecTokens cap with
  | nil => exact absurd hts htoks
  | cons t ts =>
    refine ⟨?_, ?_, ?_⟩
    · intro hv
      simp [parseFormat, hm, hc, hts, hv]
    · intro ha
      cases ts with
      | nil => simp [parseFormat, hm, hc, hts, ha]
      | cons t1 ts' => simp [parseFormat, hm, hc, hts, ha]
    · intro ha hv hlen
      cases ts with
      | nil => simp [parseFormat, hm, hc, hts, ha, hv]
      | cons t1 ts' => simp at hlen

def c4AudioOnly : RawFormat where
  itag := none
  mimeType := some "audio/webm; codecs=\"opus\""
  width := none
  height := none
  fps := none
  contentLength := none
  qualityLabel := none
  audioQuality := none
  url := none

/-- Closed instance of the amended C4: an audio-only MIME type with one codec
token gets that token as acodec and "none" as vcodec. -/
theorem C4_codec_tokens_witness :
    (parseFormat c4AudioOnly .adaptive).acodec = (codecTokens "opus").get? 0 ∧
    (parseFormat c4AudioOnly .adaptive).vcodec = some "none" :=
  (C4_codec_tokens_amended c4AudioOnly .adaptive "audio/webm; codecs=\"opus\"" "opus"
    rfl rfl).2.2 (by decide) (by decide) (by decide)

/-- Claim C2: the top-level extractor errors with "All extraction methods
failed" exactly when both strategies produce no result; an HTTP 403 makes the
first strategy yield a soft null (its internal throw is caught), so the embed
fallback decides the outcome; and the result is always either a VideoInfo
produced by one of the two strategies or that single error - never a null or
partial record. -/
theorem C2_extraction_fallback :
    (∀ o e, extractVideoInfo o e = .error "All extraction methods failed" ↔
      (extractFromInnerTube o = none ∧ e = none)) ∧
    (∀ body e, extractFromInnerTube (.response 403 body) = none ∧
      extractVideoInfo (.response 403 body) e =
        (match e with
         | some v => .ok v
         | none => .error "All extraction methods failed")) ∧
    (∀ o e, (∃ v, extractVideoInfo o e = .ok v ∧
        (extractFromInnerTube o = some v ∨ e = some v)) ∨
      extractVideoInfo o e = .error "All extraction methods failed") := by
  refine ⟨?_, ?_, ?_⟩
  · intro o e
    cases hi : extractFromInnerTube o <;> cases e <;>
      simp [extractVideoInfo, hi]
  · intro body e
    have h403 : extractFromInnerTube (.response 403 body) = none := by
      simp [extractFromInnerTube, responseOk]
    refine ⟨h403, ?_⟩
    cases e <;> simp [extractVideoInfo, h403]
  · intro o e
    cases hi : extractFromInnerTube o with
    | some v => exact Or.inl ⟨v, by simp [extractVideoInfo, hi], Or.inl rfl⟩
    | none =>
      cases e with
      | some v => exact Or.inl ⟨v, by simp [extractVideoInfo, hi], Or.inr rfl⟩
      | none => exact Or.inr (by simp [extractVideoInfo, hi])

/-- Closed instance of C2: with a 403 response and no embed result the entry
point raises the final error; with a 403 response and an embed result it
returns that result. -/
theorem C2_extraction_fallback_witness :
    extractVideoInfo (.response 403 none) none =
      .error "All extraction methods failed" ∧
    extractFromInnerTube (.response 403 none) = none :=
  ⟨(C2_extraction_fallback.1 (.response 403 none) none).mpr
     ⟨(C2_extraction_fallback.2.1 none none).1, rfl⟩,
   (C2_extraction_fallback.2.1 none none).1⟩

def c9NoDetailsJson : RawPlayerResponse where
  videoDetails := none
  streamingData := none

/-- Claim C9 meets a code bug: when the iframe loads with an accessible
document whose embedded JSON parses but lacks `videoDetails`, the normalizer
throws after the iframe was already removed; the catch block's second
`removeChild` then throws a DOM exception before `resolve(null)` runs, so the
promise never settles (`settled = none`), contradicting the claimed
"resolves with a VideoInfo or null" on every exit path. All other exit paths
do resolve (with null) and leave no iframe or pending timer behind. -/
theorem C9_embed_never_settles :
    (runEmbed (.load (.player c9NoDetailsJson))).settled = none ∧
    (runEmbed (.load (.player c9NoDetailsJson))).iframeAttached = false ∧
    (runEmbed (.load (.player c9NoDetailsJson))).timerPending = false ∧
    (runEmbed .timeoutFirst).settled = some none ∧
    (runEmbed .loadError).settled = some none ∧
    (runEmbed (.load .blocked)).settled = some none ∧
    (runEmbed (.load .noPlayerData)).settled = some none ∧
    (runEmbed (.load .badJson)).settled = some none ∧
    (∀ sc, (runEmbed sc).iframeAttached = false ∧ (runEmbed sc).timerPending = false) := by
  refine ⟨rfl, rfl, rfl, rfl, rfl, rfl, rfl, rfl, ?_⟩
  intro sc
  cases sc with
  | timeoutFirst => exact ⟨rfl, rfl⟩
  | loadError => exact ⟨rfl, rfl⟩
  | load doc =>
    cases doc with
    | blocked => exact ⟨rfl, rfl⟩
    | noPlayerData => exact ⟨rfl, rfl⟩
    | badJson => exact ⟨rfl, rfl⟩
    | player pr =>
      cases hpr : parsePlayerResponse pr with
      | ok v => simp [runEmbed, onloadRun, onloadTryBlock, hpr, domRemoveChild, clearTimer, resolveWith]
      | error e => simp [runEmbed, onloadRun, onloadTryBlock, hpr, domRemoveChild, clearTimer, resolveWith]

/-- Claim C7: `extractVideoId` tries the combined watch/youtu.be/embed
pattern first and the /v/ pattern second, returns the first captured group of
the first pattern that matches, and null when neither matches; the captured
id undergoes no length or charset validation, as any nonempty run of
non-terminator characters after "youtu.be/" is returned verbatim. -/
theorem C7_extract_video_id :
    (∀ url v, matchYtPattern watchAlts url = some v → extractVideoId url = some v) ∧
    (∀ url, matchYtPattern watchAlts url = none →
      extractVideoId url = matchYtPattern vAlts url) ∧
    extractVideoId "https://youtu.be/abc123" = some "abc123" ∧
    extractVideoId "https://youtube.com/playlist?list=X" = none ∧
    (∀ s, s.data ≠ [] → s.data.all idChar = true →
      extractVideoId ("https://youtu.be/" ++ s) = some s) := by
  refine ⟨?_, ?_, rfl, rfl, ?_⟩
  · intro url v h
    simp [extractVideoId, videoIdPatternAlts, List.findSome?_cons, h]
  · intro url h
    simp only [extractVideoId, videoIdPatternAlts, List.findSome?_cons, h]
    cases hm : matchYtPattern vAlts url <;> simp [List.findSome?, hm]
  · intro s hne hall
    obtain ⟨sd⟩ := s
    cases sd with
    | nil => exact absurd rfl hne
    | cons c cs =>
      simp only [List.all_cons, Bool.and_eq_true] at hall
      obtain ⟨hc, hcs⟩ := hall
      have h1 : (c :: cs).takeWhile idChar = c :: cs := by
        refine takeWhile_of_all ?_
        simp [List.all_cons, hc, hcs]
      have e1 : tryAlts (watchAlts.map String.data)
          ('y' :: 'o' :: 'u' :: 't' :: 'u' :: '.' :: 'b' :: 'e' :: '/' :: (c::cs)) = some (c :: cs) := by
        show (match (('y' :: 'o' :: 'u' :: 't' :: 'u' :: '.' :: 'b' :: 'e' :: '/' :: (c::cs)).drop 9).takeWhile idChar with
              | [] => tryAlts ["youtube.com/embed/".data]
                  ('y' :: 'o' :: 'u' :: 't' :: 'u' :: '.' :: 'b' :: 'e' :: '/' :: (c::cs))
              | c1 :: cs1 => some (c1 :: cs1)) = some (c :: cs)
        rw [show (('y' :: 'o' :: 'u' :: 't' :: 'u' :: '.' :: 'b' :: 'e' :: '/' :: (c::cs)).drop 9) = c :: cs from rfl,
          h1]
      have e2 : scanAlts (watchAlts.map String.data)
          ('h' :: 't' :: 't' :: 'p' :: 's' :: ':' :: '/' :: '/' :: 'y' :: 'o' :: 'u' :: 't' :: 'u' :: '.' :: 'b' :: 'e' :: '/' :: (c::cs)) =
          some (c :: cs) := by
        rw [show scanAlts (watchAlts.map String.data)
            ('h' :: 't' :: 't' :: 'p' :: 's' :: ':' :: '/' :: '/' :: 'y' :: 'o' :: 'u' :: 't' :: 'u' :: '.' :: 'b' :: 'e' :: '/' :: (c::cs)) =
            scanAlts (watchAlts.map String.data)
            ('y' :: 'o' :: 'u' :: 't' :: 'u' :: '.' :: 'b' :: 'e' :: '/' :: (c::cs)) from rfl]
        rw [scanAlts, e1]
      simp [extractVideoId, videoIdPatternAlts, List.findSome?_cons, matchYtPattern, e2]

/-- Closed instance of C7: an id with unusual characters and length is
returned verbatim (no validation), via the youtu.be alternative. -/
theorem C7_extract_video_id_witness :
    extractVideoId ("https://youtu.be/" ++ "x!.~b_longer-than-eleven") =
      some "x!.~b_longer-than-eleven" :=
  C7_extract_video_id.2.2.2.2 "x!.~b_longer-than-eleven" (by decide) (by decide)
